import Mathlib

/-!
Verification development for the `toy-arms` external process-memory scanner.

The definitions below are a shallow embedding of `src/external/external.rs`
and `src/utils.rs`.  The pattern-compiler / signature-scanner module
(`crate::external::pattern_scan`, referenced by `Module::find_pattern` but not
part of the sources at hand) is modelled from the specification's §4.1/§4.2,
as marked on each such definition.

Machine integers (`usize`) are modelled as `Nat` with explicit reduction
modulo `2^64` where wrap-around matters.  Rust panics are modelled by the
`PanicOr` result type; fallible OS calls are driven by explicit environment
records (memory contents, readability, snapshot traces), and the unbounded
enumeration loops are modelled with an explicit fuel argument: a run whose
every fuel bound yields `none` is a run that never returns.
-/

deriving instance DecidableEq for Except

namespace ToyArms

/-- 64-bit wrap-around, the release-mode semantics of `usize` arithmetic. -/
def wrap64 (n : Nat) : Nat := n % 18446744073709551616

/-- Rust computations that may panic: `panicked` models a `panic!`
(`unwrap` / `expect`), `ret` a normal return. -/
inductive PanicOr (α : Type) where
  | panicked
  | ret (val : α)
deriving DecidableEq

/-- Errors of `ToyArmsExternalError` in `src/external/external.rs` (lines 28-42).
Note the enum has no `EnumerationError` variant. -/
inductive ToyArmsExternalError where
  | SnapshotFailed
  | NoMoreFiles
  | ProcessNotFound
  | ModuleNotFound
  | ReadProcessMemoryFailed
  | WriteProcessMemoryFailed
deriving DecidableEq

/- ## Pattern compiler, modelled from the spec (§4.1) -/

/-- Modelled from the spec: `PatternToken — variant {ExactByte(0..255), Wildcard}`
(§3); the compiler itself lives in `src/external/pattern_scan.rs`, which is not
among the sources. -/
inductive PatternToken where
  | exactByte (b : Nat)
  | wildcard
deriving DecidableEq

/-- Value of a hexadecimal digit, case-insensitive (spec §4.1: "two hex digits
(case-insensitive)"). -/
def hexVal (c : Char) : Option Nat :=
  if '0' ≤ c ∧ c ≤ '9' then some (c.toNat - '0'.toNat)
  else if 'a' ≤ c ∧ c ≤ 'f' then some (c.toNat - 'a'.toNat + 10)
  else if 'A' ≤ c ∧ c ≤ 'F' then some (c.toNat - 'A'.toNat + 10)
  else none

/-- Modelled from the spec: a token is "either two hex digits (case-insensitive)
or the literal wildcard marker" `?` (§4.1, §6). -/
def parseToken : List Char → Option PatternToken
  | ['?'] => some PatternToken.wildcard
  | [c1, c2] =>
    match hexVal c1, hexVal c2 with
    | some h, some l => some (PatternToken.exactByte (16 * h + l))
    | _, _ => none
  | _ => none

/-- Splits a character list on whitespace, dropping empty fragments
(spec §4.1: "consecutive/leading/trailing whitespace must be tolerated").
The accumulator holds the current token reversed. -/
def tokenizeAux : List Char → List Char → List (List Char)
  | [], cur => if cur.isEmpty then [] else [cur.reverse]
  | c :: rest, cur =>
    if c.isWhitespace then
      if cur.isEmpty then tokenizeAux rest [] else cur.reverse :: tokenizeAux rest []
    else tokenizeAux rest (c :: cur)

/-- Space-separated tokens of a pattern string (spec §4.1). -/
def tokenize (cs : List Char) : List (List Char) := tokenizeAux cs []

/-- Modelled from the spec: the Pattern Compiler "fails with `MalformedPattern`"
(§4.1); this error type is not `ToyArmsExternalError`, which lacks that variant. -/
inductive PatternError where
  | MalformedPattern
deriving DecidableEq

/-- Parses every token, `none` as soon as one is invalid. -/
def compileTokens : List (List Char) → Option (List PatternToken)
  | [] => some []
  | t :: rest =>
    match parseToken t, compileTokens rest with
    | some p, some ps => some (p :: ps)
    | _, _ => none

/-- Modelled from the spec: Pattern Compiler (§4.1).  "Output: CompiledPattern.
Fails with `MalformedPattern` when a token is neither a valid two-digit hex byte
nor the wildcard marker, or when the string yields zero tokens." -/
def compilePattern (s : String) : Except PatternError (List PatternToken) :=
  let toks := tokenize s.data
  if toks.isEmpty then Except.error PatternError.MalformedPattern
  else
    match compileTokens toks with
    | some pats => Except.ok pats
    | none => Except.error PatternError.MalformedPattern

/- ## Signature scanner, modelled from the spec (§4.2) -/

/-- A single token against a single buffer byte: "a Wildcard token always
matches; an ExactByte token matches iff equal" (spec §4.2 step 3). -/
def tokenMatches : PatternToken → Nat → Bool
  | PatternToken.wildcard, _ => true
  | PatternToken.exactByte b, x => b == x

/-- The match property at offset `k`: every pattern index aligns with an
in-bounds buffer byte that its token matches (spec §4.2 contract). -/
def matchAt (buf : List Nat) (pat : List PatternToken) (k : Nat) : Bool :=
  (List.range pat.length).all fun i =>
    match pat.get? i, buf.get? (k + i) with
    | some t, some x => tokenMatches t x
    | _, _ => false

/-- Modelled from the spec: skip-table construction (§4.2 steps 1-2).  Walks the
pattern with running index `i`, updating the table at indices `0 .. len-2`:
an ExactByte(b) at `i` sets `table[b] = len - 1 - i`, a Wildcard leaves the
table untouched. -/
def fillTable (len : Nat) : Nat → List PatternToken → (Nat → Nat) → Nat → Nat
  | _, [], tbl => tbl
  | i, PatternToken.exactByte b :: rest, tbl =>
    if i < len - 1 then
      fillTable len (i + 1) rest (fun x => if x = b then len - 1 - i else tbl x)
    else tbl
  | i, PatternToken.wildcard :: rest, tbl =>
    if i < len - 1 then fillTable len (i + 1) rest tbl else tbl

/-- Modelled from the spec: "Build a 256-entry skip table initialized to
`pattern.len()`" then fill per §4.2 step 2. -/
def skipTable (pat : List PatternToken) : Nat → Nat :=
  fillTable pat.length 0 pat (fun _ => pat.length)

/-- Modelled from the spec: the scanning loop (§4.2 steps 3-5).  The cursor `c`
is the buffer index aligned with the pattern's last token; out of bounds means
termination with `none`; on a full match the alignment start `c + 1 - len` is
returned; on a mismatch the cursor advances by the skip of the byte under it,
at least 1 ("if this would not advance, advance by 1").  The fuel argument only
bounds the iteration count; `search` passes enough for the cursor, which grows
strictly, to cross the whole buffer. -/
def bmhLoop (buf : List Nat) (pat : List PatternToken) (tbl : Nat → Nat) :
    Nat → Nat → Option Nat
  | _, 0 => none
  | c, fuel + 1 =>
    match buf.get? c with
    | none => none
    | some byte =>
      if matchAt buf pat (c + 1 - pat.length) then some (c + 1 - pat.length)
      else bmhLoop buf pat tbl (c + max (tbl byte) 1) fuel

/-- Modelled from the spec: `search(buffer, pattern)` (§4.2), the
wildcard-tolerant single-pass skip search, cursor starting at `len - 1`. -/
def search (buf : List Nat) (pat : List PatternToken) : Option Nat :=
  bmhLoop buf pat (skipTable pat) (pat.length - 1) (buf.length + 1)

/- ## Remote memory accessor (`read` of external.rs, lines 87-102) -/

/-- The target process's address space: byte contents and per-address
readability (an address `ReadProcessMemory` would fail on is unreadable). -/
structure Env where
  mem : Nat → Nat
  readable : Nat → Bool

/-- Little-endian value of `n` bytes at `addr`, as `ReadProcessMemory` copies
them into a zeroed local `usize` buffer. -/
def leVal (env : Env) (addr : Nat) : Nat → Nat
  | 0 => 0
  | n + 1 => env.mem addr % 256 + 256 * leVal env (addr + 1) n

/-- Whether all `n` bytes starting at `addr` are readable. -/
def canRead (env : Env) (addr n : Nat) : Bool :=
  (List.range n).all fun i => env.readable (addr + i)

/-- Embeds `read::<T>` (external.rs lines 87-102) at byte width `n`: returns the
copied value, or `ReadProcessMemoryFailed` when the underlying copy fails. -/
def read (env : Env) (base_address n : Nat) : Except ToyArmsExternalError Nat :=
  if canRead env base_address n then Except.ok (leVal env base_address n)
  else Except.error ToyArmsExternalError.ReadProcessMemoryFailed

/-- Byte width of `usize` on the scanning machine (the source assumes the
scanner's own pointer width, spec §9). -/
def usizeBytes : Nat := 8

/- ## Module and the scan facade (external.rs lines 44-83) -/

/-- The `Module` record (external.rs lines 44-52).  The process handle is
subsumed by the `Env` each operation receives; string fields are kept as
decoded strings. -/
structure Module where
  module_size : Nat
  module_base_address : Nat
  module_name : String
  module_path : String
deriving DecidableEq

/-- The bytes of the region `[base, base + size)` as the scanner's bulk copy
materializes them locally (spec §4.5). -/
def regionBytes (env : Env) (base size : Nat) : List Nat :=
  (List.range size).map fun i => env.mem (base + i) % 256

/-- Modelled from the spec: `boyer_moore_horspool(handle, pattern, base, end)`
(the entry point of the missing `pattern_scan.rs`): compiles the pattern,
searches the copied region, and translates a hit to an absolute address
(spec §4.5: "`module.base + offset`"); a compile failure cannot surface
through the `Option` result and yields `none`. -/
def boyer_moore_horspool (env : Env) (pattern : String) (base e : Nat) :
    Option Nat :=
  match compilePattern pattern with
  | Except.error _ => none
  | Except.ok pat => (search (regionBytes env base (e - base)) pat).map (base + ·)

/-- `Module::find_pattern` (external.rs lines 68-72): scans
`[base, base + module_size)`. -/
def Module.find_pattern (m : Module) (env : Env) (pattern : String) : Option Nat :=
  boyer_moore_horspool env pattern m.module_base_address
    (m.module_base_address + m.module_size)

/-- `Module::pattern_scan` (external.rs lines 74-78): on a match, reads a
pointer-sized value at `match + offset`; the source unwraps that read with
`.expect("READ FAILED IN PATTERN SCAN")`, i.e. panics on failure; on success
it returns `value - module_base_address + extra` in `usize` arithmetic. -/
def Module.pattern_scan (m : Module) (env : Env) (pattern : String)
    (offset extra : Nat) : PanicOr (Option Nat) :=
  match m.find_pattern env pattern with
  | none => PanicOr.ret none
  | some address =>
    match read env (wrap64 (address + offset)) usizeBytes with
    | Except.error _ => PanicOr.panicked
    | Except.ok v =>
      PanicOr.ret (some (wrap64 (wrap64 (v + 18446744073709551616 -
        wrap64 m.module_base_address) + extra)))

/-- `Module::find_pattern_specific_range` (external.rs lines 80-82). -/
def Module.find_pattern_specific_range (_m : Module) (env : Env)
    (pattern : String) (start e : Nat) : Option Nat :=
  boyer_moore_horspool env pattern start e

/- ## Snapshot enumeration (external.rs lines 126-224) -/

/-- A `MODULEENTRY32` as the comparison loop sees it: name and path fields are
kept post-decode (their in-entry byte decoding is `read_null_terminated_string`,
modelled separately below). -/
structure MODULEENTRY32 where
  szModule : String
  modBaseAddr : Nat
  modBaseSize : Nat
  szExePath : String
deriving DecidableEq

/-- A `PROCESSENTRY32` as the comparison loop sees it. -/
structure PROCESSENTRY32 where
  szExeFile : String
  th32ProcessID : Nat
deriving DecidableEq

/-- One `Module32Next` / `Process32Next` outcome: a fresh entry, or `FALSE`
with the `GetLastError` status (18 is `ERROR_NO_MORE_FILES`, "no more
entries"). -/
inductive NextResult (ε : Type) where
  | ok (entry : ε)
  | fail (lastError : Nat)
deriving DecidableEq

/-- The OS behavior one `get_module_info` run observes: whether the snapshot
opens, the `Module32First` outcome, and the stream of `Module32Next`
outcomes. -/
structure ModuleSnapshotOs where
  snapshotOk : Bool
  first : Option MODULEENTRY32
  next : Nat → NextResult MODULEENTRY32

/-- The OS behavior one `get_process_id` run observes. -/
structure ProcessSnapshotOs where
  snapshotOk : Bool
  first : Option PROCESSENTRY32
  next : Nat → NextResult PROCESSENTRY32

/-- `Module::from_module_entry` (external.rs lines 55-66). -/
def Module.from_module_entry (entry : MODULEENTRY32) (module_name : String) :
    Module :=
  { module_size := entry.modBaseSize
    module_base_address := entry.modBaseAddr
    module_name := module_name
    module_path := entry.szExePath }

/-- The `loop` of `get_module_info` (external.rs lines 163-178): on a failed
`Module32Next` it returns `NoMoreFiles` only for status 18; any other status
falls through to comparing the unchanged (stale) entry; a fresh entry replaces
the current one before the comparison.  `none` means the given fuel was
exhausted with no return — the source loop is still running. -/
def moduleLoop (module_name : String) :
    (Nat → NextResult MODULEENTRY32) → MODULEENTRY32 → Nat →
    Option (Except ToyArmsExternalError Module)
  | _, _, 0 => none
  | next, entry, fuel + 1 =>
    match next 0 with
    | NextResult.fail code =>
      if code = 18 then some (Except.error ToyArmsExternalError.NoMoreFiles)
      else if entry.szModule = module_name then
        some (Except.ok (Module.from_module_entry entry module_name))
      else moduleLoop module_name (fun n => next (n + 1)) entry fuel
    | NextResult.ok e =>
      if e.szModule = module_name then
        some (Except.ok (Module.from_module_entry e module_name))
      else moduleLoop module_name (fun n => next (n + 1)) e fuel

/-- `Process::get_module_info` (external.rs lines 144-182), paired with whether
`CloseHandle` ran on the snapshot: the function contains no `CloseHandle` call,
so the flag is `false` on every path.  `Module32First` failing skips the whole
comparison block and lands on `Err(ModuleNotFound)` (line 180). -/
def get_module_info (os : ModuleSnapshotOs) (module_name : String) (fuel : Nat) :
    Option (Except ToyArmsExternalError Module × Bool) :=
  if os.snapshotOk = false then
    some (Except.error ToyArmsExternalError.SnapshotFailed, false)
  else
    match os.first with
    | none => some (Except.error ToyArmsExternalError.ModuleNotFound, false)
    | some e0 =>
      if e0.szModule = module_name then
        some (Except.ok (Module.from_module_entry e0 module_name), false)
      else (moduleLoop module_name os.next e0 fuel).map (fun r => (r, false))

/-- The `loop` of `get_process_id` (external.rs lines 204-215), same shape as
`moduleLoop`. -/
def processLoop (process_name : String) :
    (Nat → NextResult PROCESSENTRY32) → PROCESSENTRY32 → Nat →
    Option (Except ToyArmsExternalError Nat)
  | _, _, 0 => none
  | next, entry, fuel + 1 =>
    match next 0 with
    | NextResult.fail code =>
      if code = 18 then some (Except.error ToyArmsExternalError.NoMoreFiles)
      else if entry.szExeFile = process_name then
        some (Except.ok entry.th32ProcessID)
      else processLoop process_name (fun n => next (n + 1)) entry fuel
    | NextResult.ok e =>
      if e.szExeFile = process_name then some (Except.ok e.th32ProcessID)
      else processLoop process_name (fun n => next (n + 1)) e fuel

/-- `get_process_id` (external.rs lines 190-220), paired with whether
`CloseHandle` ran on the snapshot.  The only `CloseHandle` (line 217) sits
after the `Process32First == 1` block, so it runs exactly when `Process32First`
fails, just before `Err(ProcessNotFound)`; every `return` inside the block
bypasses it. -/
def get_process_id (os : ProcessSnapshotOs) (process_name : String) (fuel : Nat) :
    Option (Except ToyArmsExternalError Nat × Bool) :=
  if os.snapshotOk = false then
    some (Except.error ToyArmsExternalError.SnapshotFailed, false)
  else
    match os.first with
    | none => some (Except.error ToyArmsExternalError.ProcessNotFound, true)
    | some e0 =>
      if e0.szExeFile = process_name then
        some (Except.ok e0.th32ProcessID, false)
      else (processLoop process_name os.next e0 fuel).map (fun r => (r, false))

/-- The `Process` record (external.rs lines 126-131). -/
structure Process where
  process_name : String
  process_id : Nat
  process_handle : Nat
deriving DecidableEq

/-- `get_process_handle` (external.rs lines 222-224): a bare `OpenProcess`
whose result — null or not — is returned unchecked; `openProcess` is the OS's
answer per process id. -/
def get_process_handle (openProcess : Nat → Nat) (process_id : Nat) : Nat :=
  openProcess process_id

/-- `Process::from_process_name` (external.rs lines 133-142):
`get_process_id(..).unwrap()` panics on any `Err`; on `Ok` the handle from
`get_process_handle` is stored without any check. -/
def Process.from_process_name (os : ProcessSnapshotOs) (openProcess : Nat → Nat)
    (process_name : String) (fuel : Nat) : Option (PanicOr Process) :=
  (get_process_id os process_name fuel).map fun r =>
    match r.1 with
    | Except.error _ => PanicOr.panicked
    | Except.ok pid =>
      PanicOr.ret
        { process_name := process_name
          process_id := pid
          process_handle := get_process_handle openProcess pid }

/- ## `read_null_terminated_string` (utils.rs lines 57-68) -/

/-- The byte run the loop of `read_null_terminated_string` collects: bytes from
`base` up to (excluding) the first zero byte; `none` when no terminator occurs
within `fuel` bytes (the source loop would still be running). -/
def bytesUntilZero (mem : Nat → Nat) (base : Nat) : Nat → Option (List Nat)
  | 0 => none
  | fuel + 1 =>
    if mem base % 256 = 0 then some []
    else (bytesUntilZero mem (base + 1) fuel).map (mem base % 256 :: ·)

/-- A UTF-8 continuation byte. -/
def isCont (b : Nat) : Prop := 0x80 ≤ b ∧ b ≤ 0xBF

instance (b : Nat) : Decidable (isCont b) := by unfold isCont; infer_instance

/-- UTF-8 validity of a byte sequence, as `std::str::from_utf8` checks it
(RFC 3629 well-formed byte ranges). -/
def utf8Valid : List Nat → Bool
  | [] => true
  | b1 :: rest =>
    if b1 ≤ 0x7F then utf8Valid rest
    else if 0xC2 ≤ b1 ∧ b1 ≤ 0xDF then
      match rest with
      | b2 :: rest2 => if isCont b2 then utf8Valid rest2 else false
      | [] => false
    else if b1 = 0xE0 then
      match rest with
      | b2 :: b3 :: rest3 =>
        if (0xA0 ≤ b2 ∧ b2 ≤ 0xBF) ∧ isCont b3 then utf8Valid rest3 else false
      | _ => false
    else if (0xE1 ≤ b1 ∧ b1 ≤ 0xEC) ∨ b1 = 0xEE ∨ b1 = 0xEF then
      match rest with
      | b2 :: b3 :: rest3 =>
        if isCont b2 ∧ isCont b3 then utf8Valid rest3 else false
      | _ => false
    else if b1 = 0xED then
      match rest with
      | b2 :: b3 :: rest3 =>
        if (0x80 ≤ b2 ∧ b2 ≤ 0x9F) ∧ isCont b3 then utf8Valid rest3 else false
      | _ => false
    else if b1 = 0xF0 then
      match rest with
      | b2 :: b3 :: b4 :: rest4 =>
        if (0x90 ≤ b2 ∧ b2 ≤ 0xBF) ∧ isCont b3 ∧ isCont b4 then utf8Valid rest4
        else false
      | _ => false
    else if 0xF1 ≤ b1 ∧ b1 ≤ 0xF3 then
      match rest with
      | b2 :: b3 :: b4 :: rest4 =>
        if isCont b2 ∧ isCont b3 ∧ isCont b4 then utf8Valid rest4 else false
      | _ => false
    else if b1 = 0xF4 then
      match rest with
      | b2 :: b3 :: b4 :: rest4 =>
        if (0x80 ≤ b2 ∧ b2 ≤ 0x8F) ∧ isCont b3 ∧ isCont b4 then utf8Valid rest4
        else false
      | _ => false
    else false

/-- The `Utf8Error` of `std::str::from_utf8`. -/
inductive Utf8Error where
  | invalid
deriving DecidableEq

/-- `read_null_terminated_string` (utils.rs lines 57-68): collect bytes up to
the first zero, then validate as UTF-8, returning the decoded string (here:
its byte run) or an explicit `Utf8Error` — the `?` on `from_utf8` propagates,
it never panics.  `none` means no terminator within `fuel` bytes (the source
loop is still scanning). -/
def read_null_terminated_string (mem : Nat → Nat) (base_address fuel : Nat) :
    Option (Except Utf8Error (List Nat)) :=
  (bytesUntilZero mem base_address fuel).map fun bytes =>
    if utf8Valid bytes then Except.ok bytes else Except.error Utf8Error.invalid

/- ## Divergence predicates for the enumeration runs -/

/-- A `get_module_info` run that never returns: every fuel bound is exhausted
with the loop still running. -/
def moduleInfoNeverReturns (os : ModuleSnapshotOs) (module_name : String) : Prop :=
  ∀ fuel, get_module_info os module_name fuel = none

/-- A `get_process_id` run that never returns. -/
def processIdNeverReturns (os : ProcessSnapshotOs) (process_name : String) : Prop :=
  ∀ fuel, get_process_id os process_name fuel = none

/- ## Helper lemmas: enumeration loops -/

theorem moduleLoop_fail_step {t : Nat → NextResult MODULEENTRY32}
    {e : MODULEENTRY32} {c : Nat} (name : String) (fuel : Nat)
    (h : t 0 = NextResult.fail c) (hc : c ≠ 18) (he : e.szModule ≠ name) :
    moduleLoop name t e (fuel + 1) = moduleLoop name (fun n => t (n + 1)) e fuel := by
  simp [moduleLoop, h, hc, he]

theorem moduleLoop_fail18 {t : Nat → NextResult MODULEENTRY32}
    (name : String) (e : MODULEENTRY32) (fuel : Nat)
    (h : t 0 = NextResult.fail 18) :
    moduleLoop name t e (fuel + 1) =
      some (Except.error ToyArmsExternalError.NoMoreFiles) := by
  simp [moduleLoop, h]

theorem moduleLoop_const_fail (name : String) (c : Nat) (hc : c ≠ 18) :
    ∀ (fuel : Nat) (t : Nat → NextResult MODULEENTRY32) (e : MODULEENTRY32),
      (∀ k, t k = NextResult.fail c) → e.szModule ≠ name →
      moduleLoop name t e fuel = none
  | 0, _, _, _, _ => rfl
  | fuel + 1, t, e, ht, he => by
    rw [moduleLoop_fail_step name fuel (ht 0) hc he]
    exact moduleLoop_const_fail name c hc fuel _ e (fun k => ht (k + 1)) he

theorem processLoop_fail_step {t : Nat → NextResult PROCESSENTRY32}
    {e : PROCESSENTRY32} {c : Nat} (name : String) (fuel : Nat)
    (h : t 0 = NextResult.fail c) (hc : c ≠ 18) (he : e.szExeFile ≠ name) :
    processLoop name t e (fuel + 1) = processLoop name (fun n => t (n + 1)) e fuel := by
  simp [processLoop, h, hc, he]

theorem processLoop_fail18 {t : Nat → NextResult PROCESSENTRY32}
    (name : String) (e : PROCESSENTRY32) (fuel : Nat)
    (h : t 0 = NextResult.fail 18) :
    processLoop name t e (fuel + 1) =
      some (Except.error ToyArmsExternalError.NoMoreFiles) := by
  simp [processLoop, h]

theorem processLoop_ok_step {t : Nat → NextResult PROCESSENTRY32}
    {e e2 : PROCESSENTRY32} (name : String) (fuel : Nat)
    (h : t 0 = NextResult.ok e2) (he2 : e2.szExeFile ≠ name) :
    processLoop name t e (fuel + 1) =
      processLoop name (fun n => t (n + 1)) e2 fuel := by
  simp [processLoop, h, he2]

theorem processLoop_result_shape (name : String) :
    ∀ (fuel : Nat) (t : Nat → NextResult PROCESSENTRY32) (e : PROCESSENTRY32)
      (r : Except ToyArmsExternalError Nat), processLoop name t e fuel = some r →
      r = Except.error ToyArmsExternalError.NoMoreFiles ∨ ∃ pid, r = Except.ok pid
  | 0, _, _, _, h => by cases h
  | fuel + 1, t, e, r, h => by
    cases h0 : t 0 with
    | fail c =>
      by_cases hc : c = 18
      · subst hc
        rw [processLoop_fail18 name e fuel h0] at h
        cases h
        exact Or.inl rfl
      · by_cases he : e.szExeFile = name
        · simp only [processLoop, h0, if_neg hc, if_pos he] at h
          cases h
          exact Or.inr ⟨e.th32ProcessID, rfl⟩
        · rw [processLoop_fail_step name fuel h0 hc he] at h
          exact processLoop_result_shape name fuel _ e r h
    | ok e2 =>
      by_cases he : e2.szExeFile = name
      · simp only [processLoop, h0, if_pos he] at h
        cases h
        exact Or.inr ⟨e2.th32ProcessID, rfl⟩
      · rw [processLoop_ok_step name fuel h0 he] at h
        exact processLoop_result_shape name fuel _ e2 r h

theorem processLoop_exhaustion (name : String) :
    ∀ (k : Nat) (t : Nat → NextResult PROCESSENTRY32) (e : PROCESSENTRY32),
      (∀ i, i < k → ∃ e2, t i = NextResult.ok e2 ∧ e2.szExeFile ≠ name) →
      t k = NextResult.fail 18 →
      ∀ f, processLoop name t e (k + 1 + f) =
        some (Except.error ToyArmsExternalError.NoMoreFiles)
  | 0, t, e, _, hk, f => by
    rw [show (0 : Nat) + 1 + f = f + 1 by omega]
    exact processLoop_fail18 name e f hk
  | k + 1, t, e, hpre, hk, f => by
    obtain ⟨e2, h0, he2⟩ := hpre 0 (by omega)
    rw [show k + 1 + 1 + f = (k + 1 + f) + 1 by omega,
      processLoop_ok_step name (k + 1 + f) h0 he2]
    exact processLoop_exhaustion name k (fun n => t (n + 1)) e2
      (fun i hi => hpre (i + 1) (by omega)) hk f

theorem processLoop_const_fail (name : String) (c : Nat) (hc : c ≠ 18) :
    ∀ (fuel : Nat) (t : Nat → NextResult PROCESSENTRY32) (e : PROCESSENTRY32),
      (∀ k, t k = NextResult.fail c) → e.szExeFile ≠ name →
      processLoop name t e fuel = none
  | 0, _, _, _, _ => rfl
  | fuel + 1, t, e, ht, he => by
    rw [processLoop_fail_step name fuel (ht 0) hc he]
    exact processLoop_const_fail name c hc fuel _ e (fun k => ht (k + 1)) he

theorem moduleLoop_isSome_of_fail18 (name : String) :
    ∀ (j : Nat) (t : Nat → NextResult MODULEENTRY32) (e : MODULEENTRY32),
      t j = NextResult.fail 18 → (moduleLoop name t e (j + 1)).isSome
  | 0, t, e, h => by rw [moduleLoop_fail18 name e 0 h]; rfl
  | j + 1, t, e, h => by
    match h0 : t 0 with
    | NextResult.fail c =>
      by_cases hc : c = 18
      · subst hc; rw [moduleLoop_fail18 name e (j + 1) h0]; rfl
      · by_cases he : e.szModule = name
        · simp [moduleLoop, h0, hc, he]
        · rw [moduleLoop_fail_step name (j + 1) h0 hc he]
          exact moduleLoop_isSome_of_fail18 name j _ e h
    | NextResult.ok e2 =>
      by_cases he : e2.szModule = name
      · simp [moduleLoop, h0, he]
      · have hstep : moduleLoop name t e (j + 1 + 1) =
            moduleLoop name (fun n => t (n + 1)) e2 (j + 1) := by
          simp [moduleLoop, h0, he]
        rw [hstep]
        exact moduleLoop_isSome_of_fail18 name j _ e2 h

theorem processLoop_isSome_of_fail18 (name : String) :
    ∀ (j : Nat) (t : Nat → NextResult PROCESSENTRY32) (e : PROCESSENTRY32),
      t j = NextResult.fail 18 → (processLoop name t e (j + 1)).isSome
  | 0, t, e, h => by rw [processLoop_fail18 name e 0 h]; rfl
  | j + 1, t, e, h => by
    match h0 : t 0 with
    | NextResult.fail c =>
      by_cases hc : c = 18
      · subst hc; rw [processLoop_fail18 name e (j + 1) h0]; rfl
      · by_cases he : e.szExeFile = name
        · simp [processLoop, h0, hc, he]
        · rw [processLoop_fail_step name (j + 1) h0 hc he]
          exact processLoop_isSome_of_fail18 name j _ e h
    | NextResult.ok e2 =>
      by_cases he : e2.szExeFile = name
      · simp [processLoop, h0, he]
      · have hstep : processLoop name t e (j + 1 + 1) =
            processLoop name (fun n => t (n + 1)) e2 (j + 1) := by
          simp [processLoop, h0, he]
        rw [hstep]
        exact processLoop_isSome_of_fail18 name j _ e2 h

/- ## Helper lemmas: signature scanner -/

theorem matchAt_iff {buf : List Nat} {pat : List PatternToken} {k : Nat} :
    matchAt buf pat k = true ↔
    ∀ i, i < pat.length →
      (match pat.get? i, buf.get? (k + i) with
       | some t, some x => tokenMatches t x
       | _, _ => false) = true := by
  simp [matchAt, List.all_eq_true, List.mem_range]

theorem matchAt_oob {buf : List Nat} {pat : List PatternToken} {k : Nat}
    (hne : pat ≠ []) (hlen : buf.length < k + pat.length) :
    matchAt buf pat k = false := by
  have hl : 0 < pat.length := List.length_pos.mpr hne
  by_contra hcon
  rw [Bool.not_eq_false] at hcon
  have h1 := matchAt_iff.mp hcon (pat.length - 1) (by omega)
  rw [List.get?_eq_get (by omega : pat.length - 1 < pat.length)] at h1
  rw [List.get?_eq_none.mpr (by omega : buf.length ≤ k + (pat.length - 1))] at h1
  simp at h1

theorem bmhLoop_sound {buf : List Nat} {pat : List PatternToken}
    (tbl : Nat → Nat) :
    ∀ (fuel c k : Nat), bmhLoop buf pat tbl c fuel = some k →
      matchAt buf pat k = true
  | 0, c, k, h => by simp [bmhLoop] at h
  | fuel + 1, c, k, h => by
    simp only [bmhLoop] at h
    cases hb : buf.get? c with
    | none => rw [hb] at h; cases h
    | some byte =>
      rw [hb] at h
      simp only at h
      by_cases hm : matchAt buf pat (c + 1 - pat.length) = true
      · rw [if_pos hm] at h
        cases h
        exact hm
      · rw [if_neg hm] at h
        exact bmhLoop_sound tbl fuel (c + max (tbl byte) 1) k h

theorem search_none_of_short {buf : List Nat} {pat : List PatternToken}
    (h : buf.length < pat.length) : search buf pat = none := by
  unfold search
  simp only [bmhLoop,
    List.get?_eq_none.mpr (show buf.length ≤ pat.length - 1 by omega)]

theorem fillTable_le_max (len : Nat) :
    ∀ (l : List PatternToken) (i : Nat) (tbl : Nat → Nat) (x : Nat),
      fillTable len i l tbl x ≤ max (tbl x) (len - 1 - i)
  | [], i, tbl, x => by simp [fillTable]
  | PatternToken.exactByte b :: rest, i, tbl, x => by
    simp only [fillTable]
    by_cases hi : i < len - 1
    · rw [if_pos hi]
      have ih := fillTable_le_max len rest (i + 1)
        (fun x => if x = b then len - 1 - i else tbl x) x
      by_cases hx : x = b
      · simp only [if_pos hx] at ih
        omega
      · simp only [if_neg hx] at ih
        omega
    · rw [if_neg hi]
      omega
  | PatternToken.wildcard :: rest, i, tbl, x => by
    simp only [fillTable]
    by_cases hi : i < len - 1
    · rw [if_pos hi]
      have ih := fillTable_le_max len rest (i + 1) tbl x
      omega
    · rw [if_neg hi]
      omega

theorem fillTable_written (len : Nat) :
    ∀ (l : List PatternToken) (i : Nat) (tbl : Nat → Nat) (j b : Nat),
      l.get? j = some (PatternToken.exactByte b) → i + j < len - 1 →
      fillTable len i l tbl b ≤ len - 1 - (i + j)
  | [], _, _, j, _, hj, _ => by simp at hj
  | t :: rest, i, tbl, j, b, hj, hij => by
    cases j with
    | zero =>
      have ht : t = PatternToken.exactByte b := by simpa using hj
      subst ht
      simp only [fillTable]
      rw [if_pos (by omega : i < len - 1)]
      have h := fillTable_le_max len rest (i + 1)
        (fun x => if x = b then len - 1 - i else tbl x) b
      simp at h
      omega
    | succ j =>
      have hj2 : rest.get? j = some (PatternToken.exactByte b) := by simpa using hj
      cases t with
      | exactByte b2 =>
        simp only [fillTable]
        rw [if_pos (by omega : i < len - 1)]
        have ih := fillTable_written len rest (i + 1)
          (fun x => if x = b2 then len - 1 - i else tbl x) j b hj2 (by omega)
        omega
      | wildcard =>
        simp only [fillTable]
        rw [if_pos (by omega : i < len - 1)]
        have ih := fillTable_written len rest (i + 1) tbl j b hj2 (by omega)
        omega

theorem skipTable_le {pat : List PatternToken} {j b : Nat}
    (hj : pat.get? j = some (PatternToken.exactByte b))
    (hlt : j < pat.length - 1) :
    skipTable pat b ≤ pat.length - 1 - j := by
  have h := fillTable_written pat.length pat 0 (fun _ => pat.length) j b hj
    (by omega)
  simpa [skipTable] using h

theorem skipTable_le_len (pat : List PatternToken) (x : Nat) :
    skipTable pat x ≤ pat.length := by
  have h := fillTable_le_max pat.length pat 0 (fun _ => pat.length) x
  simp only [skipTable]
  omega

theorem bmhLoop_nw_invariant (buf : List Nat) (pat : List PatternToken)
    (hne : pat ≠ []) (hnw : ∀ t ∈ pat, t ≠ PatternToken.wildcard) :
    ∀ (fuel c : Nat), pat.length ≤ c + 1 → buf.length ≤ c + fuel →
      (∀ s, s + pat.length ≤ c → matchAt buf pat s = false) →
      ((bmhLoop buf pat (skipTable pat) c fuel = none →
          ∀ k, matchAt buf pat k = false) ∧
       (∀ k, bmhLoop buf pat (skipTable pat) c fuel = some k →
          matchAt buf pat k = true ∧ ∀ j, j < k → matchAt buf pat j = false))
  | 0, c, hc1, hc2, hprev => by
    have hl : 0 < pat.length := List.length_pos.mpr hne
    constructor
    · intro _ k
      by_cases hk : k + pat.length ≤ c
      · exact hprev k hk
      · exact matchAt_oob hne (by omega)
    · intro k h
      simp [bmhLoop] at h
  | fuel + 1, c, hc1, hc2, hprev => by
    have hl : 0 < pat.length := List.length_pos.mpr hne
    cases hb : buf.get? c with
    | none =>
      have hcb : buf.length ≤ c := List.get?_eq_none.mp hb
      have heq : bmhLoop buf pat (skipTable pat) c (fuel + 1) = none := by
        simp only [bmhLoop, hb]
      rw [heq]
      constructor
      · intro _ k
        by_cases hk : k + pat.length ≤ c
        · exact hprev k hk
        · exact matchAt_oob hne (by omega)
      · intro k h
        cases h
    | some byte =>
      have hcb : c < buf.length := by
        by_contra hcon
        rw [List.get?_eq_none.mpr (by omega)] at hb
        cases hb
      by_cases hm : matchAt buf pat (c + 1 - pat.length) = true
      · have heq : bmhLoop buf pat (skipTable pat) c (fuel + 1) =
            some (c + 1 - pat.length) := by
          simp only [bmhLoop, hb]
          rw [if_pos hm]
        rw [heq]
        constructor
        · intro h
          cases h
        · intro k h
          have hk : k = c + 1 - pat.length := by
            injection h with h2
            exact h2.symm
          subst hk
          refine ⟨hm, fun j hj => hprev j (by omega)⟩
      · have heq : bmhLoop buf pat (skipTable pat) c (fuel + 1) =
            bmhLoop buf pat (skipTable pat) (c + max (skipTable pat byte) 1)
              fuel := by
          simp only [bmhLoop, hb]
          rw [if_neg hm]
        have hmf : matchAt buf pat (c + 1 - pat.length) = false := by
          simpa using hm
        have hprev2 : ∀ s, s + pat.length ≤ c + max (skipTable pat byte) 1 →
            matchAt buf pat s = false := by
          intro s hs
          by_cases h1 : s + pat.length ≤ c
          · exact hprev s h1
          by_cases h2 : s + pat.length = c + 1
          · have hse : s = c + 1 - pat.length := by omega
            rw [hse]
            exact hmf
          -- shift-safety: c + 2 ≤ s + pat.length ≤ c + max skip 1
          have hge : c + 2 ≤ s + pat.length := by omega
          have hmax : max (skipTable pat byte) 1 = skipTable pat byte := by
            rcases Nat.le_total (skipTable pat byte) 1 with hle | hle
            · rw [Nat.max_eq_right hle] at hs
              omega
            · exact Nat.max_eq_left hle
          rw [hmax] at hs
          have hskl := skipTable_le_len pat byte
          have hsc : s ≤ c := by omega
          by_contra hcon
          rw [Bool.not_eq_false] at hcon
          have hj : c - s < pat.length - 1 := by omega
          have hi := matchAt_iff.mp hcon (c - s) (by omega)
          rw [show s + (c - s) = c by omega, hb] at hi
          cases hg : pat.get? (c - s) with
          | none =>
            rw [hg] at hi
            simp at hi
          | some t =>
            rw [hg] at hi
            have htmem : t ∈ pat := List.get?_mem hg
            cases t with
            | wildcard => exact absurd rfl (hnw _ htmem)
            | exactByte b2 =>
              have hbb : b2 = byte := by simpa [tokenMatches] using hi
              subst hbb
              have hsk := skipTable_le hg hj
              omega
        have hinv := bmhLoop_nw_invariant buf pat hne hnw fuel
          (c + max (skipTable pat byte) 1) (by omega) (by omega) hprev2
        rw [heq]
        exact hinv

/- ## Helper lemmas: remote reads -/

theorem leVal_lt (env : Env) : ∀ (n addr : Nat), leVal env addr n < 256 ^ n
  | 0, _ => by simp [leVal]
  | n + 1, addr => by
    have h := leVal_lt env n (addr + 1)
    have h2 : env.mem addr % 256 < 256 := Nat.mod_lt _ (by norm_num)
    have hp : 256 ^ (n + 1) = 256 ^ n * 256 := pow_succ 256 n
    simp only [leVal]
    omega

theorem read_ok_lt {env : Env} {a n v : Nat} (h : read env a n = Except.ok v) :
    v < 256 ^ n := by
  unfold read at h
  split at h
  · cases h; exact leVal_lt _ _ _
  · cases h

/- ## Helper lemmas: pattern compiler and string decoding -/

theorem compileTokens_none :
    ∀ (l : List (List Char)), (∃ t ∈ l, parseToken t = none) → compileTokens l = none
  | [], h => by simp at h
  | a :: l, h => by
    simp only [compileTokens]
    rcases h with ⟨t, ht, hf⟩
    rcases List.mem_cons.mp ht with rfl | ht2
    · rw [hf]
    · rw [compileTokens_none l ⟨t, ht2, hf⟩]
      cases parseToken a <;> rfl

theorem bytesUntilZero_spec (mem : Nat → Nat) :
    ∀ (n base fuel : Nat), mem (base + n) % 256 = 0 →
      (∀ i, i < n → mem (base + i) % 256 ≠ 0) → n < fuel →
      bytesUntilZero mem base fuel =
        some ((List.range n).map fun i => mem (base + i) % 256)
  | 0, base, fuel, hterm, _, hfuel => by
    obtain ⟨f, rfl⟩ : ∃ f, fuel = f + 1 := ⟨fuel - 1, by omega⟩
    simp only [bytesUntilZero]
    rw [if_pos (by simpa using hterm)]
    simp
  | n + 1, base, fuel, hterm, hpre, hfuel => by
    obtain ⟨f, rfl⟩ : ∃ f, fuel = f + 1 := ⟨fuel - 1, by omega⟩
    have h0 : mem base % 256 ≠ 0 := by simpa using hpre 0 (by omega)
    have ih := bytesUntilZero_spec mem n (base + 1) f
      (by rw [show base + 1 + n = base + (n + 1) by omega]; exact hterm)
      (fun i hi => by
        rw [show base + 1 + i = base + (i + 1) by omega]
        exact hpre (i + 1) (by omega))
      (by omega)
    have hlist : (List.range (n + 1)).map (fun i => mem (base + i) % 256) =
        mem base % 256 :: (List.range n).map (fun i => mem (base + 1 + i) % 256) := by
      rw [List.range_succ_eq_map, List.map_cons, List.map_map]
      refine congrArg₂ List.cons (by simp) ?_
      apply List.map_congr_left
      intro a ha
      have hx : base + (a + 1) = base + 1 + a := by omega
      simp only [Function.comp_apply, Nat.succ_eq_add_one, hx]
    simp only [bytesUntilZero, if_neg h0, ih, Option.map_some', hlist]

/- ## Claim C1 -/

/-- C1 counterexample: a concrete run in which the signature matches at
address 0 but the pointer-sized read at 0 + 2 fails; `pattern_scan` panics
instead of propagating the failure as a result value. -/
theorem pattern_scan_panic_cex :
    (Module.mk 1 0 "m" "p").pattern_scan
      ⟨fun _ => 170, fun _ => false⟩ "AA" 2 1 = PanicOr.panicked := by decide

/-- C1 (amended): if `find_pattern` matches at `A` and the pointer-sized read
at `A + offset` fails, `pattern_scan` panics (the source unwraps the read with
`.expect("READ FAILED IN PATTERN SCAN")`); the failure is never returned as a
value. -/
theorem pattern_scan_panics_on_failed_read (m : Module) (env : Env)
    (pattern : String) (offset extra A : Nat)
    (h1 : m.find_pattern env pattern = some A)
    (h2 : canRead env (wrap64 (A + offset)) usizeBytes = false) :
    m.pattern_scan env pattern offset extra = PanicOr.panicked := by
  simp [Module.pattern_scan, h1, read, h2]

/-- C1 witness: the amended theorem applied at the concrete run of the
counterexample. -/
theorem pattern_scan_panics_on_failed_read_witness :
    (Module.mk 1 0 "m" "p").pattern_scan
      ⟨fun _ => 170, fun _ => false⟩ "AA" 2 0 = PanicOr.panicked :=
  pattern_scan_panics_on_failed_read _ _ _ _ _ 0 (by decide) (by decide)

/- ## Claim C7 -/

/-- C7: when the signature search matches at absolute address `A` and the
pointer-sized read at `A + offset` succeeds with value `v`, `pattern_scan`
returns `v - module_base_address + extra` (stated away from `usize`
wrap-around, which the side conditions rule out). -/
theorem pattern_scan_success_value (m : Module) (env : Env)
    (pattern : String) (offset extra A v : Nat)
    (h1 : m.find_pattern env pattern = some A)
    (h2 : read env (wrap64 (A + offset)) usizeBytes = Except.ok v)
    (hb : m.module_base_address ≤ v)
    (hsum : v - m.module_base_address + extra < 18446744073709551616) :
    m.pattern_scan env pattern offset extra =
      PanicOr.ret (some (v - m.module_base_address + extra)) := by
  have hv : v < 18446744073709551616 := by
    have h := read_ok_lt h2
    norm_num [usizeBytes] at h
    exact h
  have harith : wrap64 (wrap64 (v + 18446744073709551616 -
      wrap64 m.module_base_address) + extra) =
      v - m.module_base_address + extra := by
    unfold wrap64
    omega
  simp only [Module.pattern_scan, h1, h2, harith]

/-- C7 witness: a concrete run with a successful follow-up read (value 0,
base 0, extra 5) returning `0 - 0 + 5`. -/
theorem pattern_scan_success_value_witness :
    (Module.mk 1 0 "m" "p").pattern_scan
      ⟨fun a => if a = 0 then 170 else 0, fun _ => true⟩ "AA" 2 5 =
      PanicOr.ret (some 5) :=
  pattern_scan_success_value _ _ _ _ _ 0 0 (by decide) (by decide)
    (by decide) (by decide)

/- ## Claim C8 -/

/-- C8: a pattern string one of whose tokens is neither a two-digit hex byte
nor the wildcard marker, or which yields zero tokens, compiles to the explicit
error `MalformedPattern`; the scanner entry point then returns without any
buffer scan, uniformly in the environment and range. -/
theorem compilePattern_malformed (s : String)
    (h : tokenize s.data = [] ∨ ∃ t ∈ tokenize s.data, parseToken t = none) :
    compilePattern s = Except.error PatternError.MalformedPattern ∧
    ∀ (env : Env) (base e : Nat), boyer_moore_horspool env s base e = none := by
  have h1 : compilePattern s = Except.error PatternError.MalformedPattern := by
    unfold compilePattern
    rcases h with h | h
    · rw [if_pos (by simp [h])]
    · by_cases hemp : (tokenize s.data).isEmpty
      · rw [if_pos hemp]
      · rw [if_neg hemp, compileTokens_none _ h]
  refine ⟨h1, fun env base e => ?_⟩
  simp [boyer_moore_horspool, h1]

/-- C8 witness: the spec's own example `"AA ZZ"` fails with
`MalformedPattern`. -/
theorem compilePattern_malformed_witness :
    compilePattern "AA ZZ" = Except.error PatternError.MalformedPattern :=
  (compilePattern_malformed "AA ZZ" (Or.inr (by decide))).1

/- ## Claim C9 -/

/-- C9: decoding a null-terminated name field extracts exactly the byte run up
to (excluding) the first zero byte — a run bounded by the distance `n` to the
terminator — and returns it when it is valid UTF-8, or the explicit decoding
error `Utf8Error.invalid` when it is not; no panic in either case. -/
theorem read_null_terminated_string_decodes (mem : Nat → Nat)
    (base n fuel : Nat)
    (hterm : mem (base + n) % 256 = 0)
    (hpre : ∀ i, i < n → mem (base + i) % 256 ≠ 0)
    (hfuel : n < fuel) :
    read_null_terminated_string mem base fuel =
      some (if utf8Valid ((List.range n).map fun i => mem (base + i) % 256)
            then Except.ok ((List.range n).map fun i => mem (base + i) % 256)
            else Except.error Utf8Error.invalid) := by
  unfold read_null_terminated_string
  rw [bytesUntilZero_spec mem n base fuel hterm hpre hfuel]
  rfl

/-- C9 witness: the byte run `[0xFF]` (terminated at offset 1) is invalid
UTF-8 and decodes to the explicit error value. -/
theorem read_null_terminated_string_decodes_witness :
    read_null_terminated_string (fun a => if a = 0 then 255 else 0) 0 2 =
      some (Except.error Utf8Error.invalid) := by
  rw [read_null_terminated_string_decodes (fun a => if a = 0 then 255 else 0)
    0 1 2 (by decide) (by decide) (by decide)]
  decide

/- ## Claim C4 -/

/-- C4 counterexample: with the wildcard-containing pattern `"? AA"`, the
spec's skip table carries no entry for the byte under a wildcard position, so
the search over-skips: on `[CC, BB, AA, AA]` it returns offset 2 although
offset 1 already matches, and on `[CC, BB, AA]` it returns `None` although
offset 1 matches — refuting "lowest offset" and "None only when no such offset
exists". -/
theorem search_lowest_cex :
    search [204, 187, 170, 170]
        [PatternToken.wildcard, PatternToken.exactByte 170] = some 2 ∧
    matchAt [204, 187, 170, 170]
        [PatternToken.wildcard, PatternToken.exactByte 170] 1 = true ∧
    search [204, 187, 170]
        [PatternToken.wildcard, PatternToken.exactByte 170] = none ∧
    matchAt [204, 187, 170]
        [PatternToken.wildcard, PatternToken.exactByte 170] 1 = true := by
  decide

/-- C4 (amended): `search` is sound — any returned offset satisfies the
per-index match property — and returns `None` whenever the pattern is longer
than the buffer; for wildcard-free patterns it is also complete and minimal:
`None` only when no offset matches, and a returned offset is the lowest
matching one.  (With wildcards the skip table may over-skip, so completeness
and minimality fail, as the counterexample shows.) -/
theorem search_sound_and_nw_complete (buf : List Nat) (pat : List PatternToken)
    (hne : pat ≠ []) :
    (∀ k, search buf pat = some k → matchAt buf pat k = true) ∧
    (buf.length < pat.length → search buf pat = none) ∧
    ((∀ t ∈ pat, t ≠ PatternToken.wildcard) →
      (search buf pat = none → ∀ k, matchAt buf pat k = false) ∧
      (∀ k, search buf pat = some k →
        matchAt buf pat k = true ∧ ∀ j, j < k → matchAt buf pat j = false)) := by
  have hl : 0 < pat.length := List.length_pos.mpr hne
  refine ⟨fun k h => bmhLoop_sound (skipTable pat) _ _ k h,
    fun h => search_none_of_short h, fun hnw => ?_⟩
  have hinv := bmhLoop_nw_invariant buf pat hne hnw (buf.length + 1)
    (pat.length - 1) (by omega) (by omega) (fun s hs => by omega)
  exact hinv

/-- C4 witness: the amended theorem applied at a concrete wildcard-free
pattern that matches its buffer at offset 0. -/
theorem search_sound_and_nw_complete_witness :
    matchAt [170] [PatternToken.exactByte 170] 0 = true :=
  (search_sound_and_nw_complete [170] [PatternToken.exactByte 170]
    (by decide)).1 0 rfl

/- ## Claim C2 -/

/-- C2 counterexample: a module-enumeration run in which every `Module32Next`
call fails with status 5 (≠ 18, "no more entries") never returns at all — in
particular it does not return an `EnumerationError` (no such variant exists in
`ToyArmsExternalError`). -/
theorem module_enum_failure_cex :
    moduleInfoNeverReturns
      ⟨true, some ⟨"a.dll", 0, 0, "p"⟩, fun _ => NextResult.fail 5⟩
      "client.dll" := by
  intro fuel
  have h := moduleLoop_const_fail "client.dll" 5 (by decide) fuel
    (fun _ => NextResult.fail 5) ⟨"a.dll", 0, 0, "p"⟩ (fun _ => rfl) (by decide)
  simp [get_module_info, h]

/-- C2 (amended): `ToyArmsExternalError` has no `EnumerationError` variant and
the loop of `get_module_info` cannot surface one.  On a `Module32Next` failure
with a status other than 18 the loop falls through to re-comparing the
unchanged entry and retries: when every next call fails that way (and the
stale entry does not match), the loop never returns; a status-18 failure
returns `NoMoreFiles` — not `ModuleNotFound`. -/
theorem module_enum_no_enumeration_error (name : String)
    (t : Nat → NextResult MODULEENTRY32) (e : MODULEENTRY32) (c : Nat)
    (hc : c ≠ 18) (ht : ∀ k, t k = NextResult.fail c) (he : e.szModule ≠ name) :
    (∀ fuel, moduleLoop name t e fuel = none) ∧
    (∀ (t2 : Nat → NextResult MODULEENTRY32) (e2 : MODULEENTRY32) (fuel : Nat),
      t2 0 = NextResult.fail 18 →
      moduleLoop name t2 e2 (fuel + 1) =
        some (Except.error ToyArmsExternalError.NoMoreFiles)) :=
  ⟨fun fuel => moduleLoop_const_fail name c hc fuel t e ht he,
   fun _ e2 fuel h => moduleLoop_fail18 name e2 fuel h⟩

/-- C2 witness: the amended theorem applied at a concrete trace, showing a
stalled run at fuel 3 and the `NoMoreFiles` outcome of a status-18 failure. -/
theorem module_enum_no_enumeration_error_witness :
    moduleLoop "client.dll" (fun _ => NextResult.fail 5) ⟨"a.dll", 0, 0, "p"⟩ 3 =
      none ∧
    moduleLoop "client.dll" (fun _ => NextResult.fail 18) ⟨"a.dll", 0, 0, "p"⟩ 1 =
      some (Except.error ToyArmsExternalError.NoMoreFiles) :=
  ⟨(module_enum_no_enumeration_error "client.dll" (fun _ => NextResult.fail 5)
      ⟨"a.dll", 0, 0, "p"⟩ 5 (by decide) (fun _ => rfl) (by decide)).1 3,
   (module_enum_no_enumeration_error "client.dll" (fun _ => NextResult.fail 5)
      ⟨"a.dll", 0, 0, "p"⟩ 5 (by decide) (fun _ => rfl) (by decide)).2
     (fun _ => NextResult.fail 18) ⟨"a.dll", 0, 0, "p"⟩ 0 rfl⟩

/- ## Claim C3 -/

/-- C3 counterexample: a process enumeration benignly exhausted by a status-18
`Process32Next` failure (one non-matching entry, then "no more entries")
returns `NoMoreFiles`, not `ProcessNotFound`. -/
theorem process_exhaustion_cex :
    get_process_id ⟨true, some ⟨"a.exe", 7⟩, fun _ => NextResult.fail 18⟩
      "b.exe" 1 = some (Except.error ToyArmsExternalError.NoMoreFiles, false) ∧
    ToyArmsExternalError.NoMoreFiles ≠ ToyArmsExternalError.ProcessNotFound :=
  ⟨rfl, by decide⟩

/-- C3 (amended): `ProcessNotFound` is returned exactly when `Process32First`
fails (the snapshot yields no first entry; this is also the only path that
closes the snapshot): that path always yields it, and no run yields it any
other way.  Every benign exhaustion — a non-matching first entry, any number
of further successfully enumerated non-matching entries, then a status-18
`Process32Next` failure — returns `NoMoreFiles` instead. -/
theorem get_process_id_not_found_paths (os : ProcessSnapshotOs) (name : String)
    (h1 : os.snapshotOk = true) :
    (os.first = none → ∀ fuel, get_process_id os name fuel =
      some (Except.error ToyArmsExternalError.ProcessNotFound, true)) ∧
    (∀ fuel b, get_process_id os name fuel =
      some (Except.error ToyArmsExternalError.ProcessNotFound, b) →
      os.first = none ∧ b = true) ∧
    (∀ e0 k, os.first = some e0 → e0.szExeFile ≠ name →
      (∀ i, i < k → ∃ e2, os.next i = NextResult.ok e2 ∧ e2.szExeFile ≠ name) →
      os.next k = NextResult.fail 18 →
      ∀ fuel, k < fuel → get_process_id os name fuel =
        some (Except.error ToyArmsExternalError.NoMoreFiles, false)) := by
  refine ⟨fun h2 fuel => by simp [get_process_id, h1, h2], ?_, ?_⟩
  · intro fuel b h
    unfold get_process_id at h
    rw [if_neg (by simp [h1])] at h
    match h2 : os.first with
    | none =>
      simp only [h2] at h
      cases h
      exact ⟨rfl, rfl⟩
    | some e0 =>
      simp only [h2] at h
      by_cases h3 : e0.szExeFile = name
      · rw [if_pos h3] at h
        cases h
      · rw [if_neg h3] at h
        rcases Option.map_eq_some'.mp h with ⟨a, ha1, ha2⟩
        rcases processLoop_result_shape name fuel os.next e0 a ha1 with hr | ⟨pid, hr⟩ <;>
          subst hr <;> cases ha2
  · intro e0 k h2 h3 hpre hk fuel hfuel
    rw [show fuel = k + 1 + (fuel - (k + 1)) by omega]
    simp [get_process_id, h1, h2, h3,
      processLoop_exhaustion name k os.next e0 hpre hk (fuel - (k + 1))]

/-- C3 witness: the amended theorem applied at concrete traces — an empty
enumeration yielding `ProcessNotFound`, and a two-entry benign exhaustion
(non-matching first entry, one further non-matching entry, then status 18)
yielding `NoMoreFiles`. -/
theorem get_process_id_not_found_paths_witness :
    get_process_id ⟨true, none, fun _ => NextResult.fail 0⟩ "x.exe" 0 =
      some (Except.error ToyArmsExternalError.ProcessNotFound, true) ∧
    get_process_id ⟨true, some ⟨"a.exe", 7⟩,
        fun n => if n = 0 then NextResult.ok ⟨"b.exe", 8⟩ else NextResult.fail 18⟩
      "x.exe" 2 = some (Except.error ToyArmsExternalError.NoMoreFiles, false) :=
  ⟨(get_process_id_not_found_paths ⟨true, none, fun _ => NextResult.fail 0⟩
      "x.exe" rfl).1 rfl 0,
   (get_process_id_not_found_paths
      ⟨true, some ⟨"a.exe", 7⟩,
        fun n => if n = 0 then NextResult.ok ⟨"b.exe", 8⟩ else NextResult.fail 18⟩
      "x.exe" rfl).2.2 ⟨"a.exe", 7⟩ 1 rfl (by decide)
     (fun i hi => by
       have h0 : i = 0 := by omega
       subst h0
       exact ⟨⟨"b.exe", 8⟩, rfl, by decide⟩)
     rfl 2 (by omega)⟩

/- ## Claim C5 -/

/-- C5 counterexample: a process-enumeration run whose every `Process32Next`
call fails with status 5 (≠ 18) and whose stale entry matches nothing runs
forever — no terminal outcome at any fuel bound. -/
theorem enumeration_divergence_cex :
    processIdNeverReturns
      ⟨true, some ⟨"a.exe", 7⟩, fun _ => NextResult.fail 5⟩ "b.exe" := by
  intro fuel
  have h := processLoop_const_fail "b.exe" 5 (by decide) fuel
    (fun _ => NextResult.fail 5) ⟨"a.exe", 7⟩ (fun _ => rfl) (by decide)
  simp [get_process_id, h]

/-- C5 (amended): both snapshot-enumeration loops do terminate on any trace
whose "next" stream eventually signals status 18 ("no more entries"): if step
`j` (resp. `k`) fails with status 18, the module (resp. process) loop reaches
a terminal outcome within `j + 1` (resp. `k + 1`) iterations.  Only a trace of
persistent non-18 failures with no matching entry loops forever. -/
theorem loops_terminate_on_status18 (mname pname : String)
    (mt : Nat → NextResult MODULEENTRY32) (pt : Nat → NextResult PROCESSENTRY32)
    (me : MODULEENTRY32) (pe : PROCESSENTRY32) (j k : Nat)
    (hj : mt j = NextResult.fail 18) (hk : pt k = NextResult.fail 18) :
    (moduleLoop mname mt me (j + 1)).isSome ∧
    (processLoop pname pt pe (k + 1)).isSome :=
  ⟨moduleLoop_isSome_of_fail18 mname j mt me hj,
   processLoop_isSome_of_fail18 pname k pt pe hk⟩

/-- C5 witness: termination at a concrete trace failing with status 18 at
step 2. -/
theorem loops_terminate_on_status18_witness :
    (moduleLoop "m.dll" (fun _ => NextResult.fail 18) ⟨"a.dll", 0, 0, "p"⟩
      3).isSome ∧
    (processLoop "p.exe" (fun _ => NextResult.fail 18) ⟨"a.exe", 7⟩ 3).isSome :=
  loops_terminate_on_status18 "m.dll" "p.exe" (fun _ => NextResult.fail 18)
    (fun _ => NextResult.fail 18) ⟨"a.dll", 0, 0, "p"⟩ ⟨"a.exe", 7⟩ 2 2 rfl rfl

/- ## Claim C6 -/

/-- C6 counterexample: a successful (`Found`) process lookup returns with the
snapshot handle not closed — `CloseHandle` did not run on this exit path. -/
theorem snapshot_leak_cex :
    get_process_id ⟨true, some ⟨"a.exe", 7⟩, fun _ => NextResult.fail 18⟩
      "a.exe" 1 = some (Except.ok 7, false) := rfl

/-- C6 (amended): `CloseHandle` runs on exactly one exit path of the two
enumerations — `get_process_id`'s first-entry-failure path (the
`ProcessNotFound` return); every other `get_process_id` exit, and every
`get_module_info` exit, leaves the snapshot handle open. -/
theorem snapshot_close_paths (os : ProcessSnapshotOs) (mos : ModuleSnapshotOs)
    (name mname : String) (fuel mfuel : Nat) :
    (∀ r b, get_process_id os name fuel = some (r, b) →
      (b = true ↔ os.snapshotOk = true ∧ os.first = none)) ∧
    (∀ r b, get_module_info mos mname mfuel = some (r, b) → b = false) := by
  constructor
  · intro r b h
    unfold get_process_id at h
    by_cases h1 : os.snapshotOk = false
    · rw [if_pos h1] at h
      cases h
      simp [h1]
    · rw [if_neg h1] at h
      match h2 : os.first with
      | none =>
        rw [h2] at h
        cases h
        simp [h2, eq_true_of_ne_false h1]
      | some e0 =>
        simp only [h2] at h
        by_cases h3 : e0.szExeFile = name
        · rw [if_pos h3] at h
          cases h
          simp [h2]
        · rw [if_neg h3] at h
          rcases Option.map_eq_some'.mp h with ⟨a, _, ha2⟩
          cases ha2
          simp [h2]
  · intro r b h
    unfold get_module_info at h
    by_cases h1 : mos.snapshotOk = false
    · rw [if_pos h1] at h
      cases h
      rfl
    · rw [if_neg h1] at h
      match h2 : mos.first with
      | none =>
        rw [h2] at h
        cases h
        rfl
      | some e0 =>
        simp only [h2] at h
        by_cases h3 : e0.szModule = mname
        · rw [if_pos h3] at h
          cases h
          rfl
        · rw [if_neg h3] at h
          rcases Option.map_eq_some'.mp h with ⟨a, _, ha2⟩
          cases ha2
          rfl

/-- C6 witness: the characterization applied on the one closing path — a
failed `Process32First` — where the flag is indeed `true`. -/
theorem snapshot_close_paths_witness :
    (true = true ↔
      (⟨true, none, fun _ => NextResult.fail 0⟩ : ProcessSnapshotOs).snapshotOk =
        true ∧
      (⟨true, none, fun _ => NextResult.fail 0⟩ : ProcessSnapshotOs).first =
        none) :=
  (snapshot_close_paths ⟨true, none, fun _ => NextResult.fail 0⟩
      ⟨true, none, fun _ => NextResult.fail 0⟩ "x.exe" "m.dll" 0 0).1
    (Except.error ToyArmsExternalError.ProcessNotFound) true rfl

/- ## Claim C10 -/

/-- C10: `Process::from_process_name` panics whenever process-id resolution
returns any error (snapshot failure, `NoMoreFiles`, or `ProcessNotFound`), and
on success stores the `OpenProcess` result unchecked — whatever handle value
the OS returns, including 0. -/
theorem from_process_name_panics_and_unchecked_handle (os : ProcessSnapshotOs)
    (openProcess : Nat → Nat) (name : String) (fuel : Nat) :
    (∀ e b, get_process_id os name fuel = some (Except.error e, b) →
      Process.from_process_name os openProcess name fuel =
        some PanicOr.panicked) ∧
    (∀ pid b, get_process_id os name fuel = some (Except.ok pid, b) →
      Process.from_process_name os openProcess name fuel =
        some (PanicOr.ret ⟨name, pid, openProcess pid⟩)) := by
  constructor
  · intro e b h
    simp [Process.from_process_name, h]
  · intro pid b h
    simp [Process.from_process_name, h, get_process_handle]

/-- C10 witness: a found process with `OpenProcess` returning the null handle
yields a `Process` value holding handle 0 with no error; an unresolvable name
panics. -/
theorem from_process_name_panics_and_unchecked_handle_witness :
    Process.from_process_name
      ⟨true, some ⟨"a.exe", 7⟩, fun _ => NextResult.fail 18⟩ (fun _ => 0)
      "a.exe" 1 = some (PanicOr.ret ⟨"a.exe", 7, 0⟩) ∧
    Process.from_process_name ⟨true, none, fun _ => NextResult.fail 0⟩
      (fun _ => 0) "x.exe" 1 = some PanicOr.panicked :=
  ⟨(from_process_name_panics_and_unchecked_handle
      ⟨true, some ⟨"a.exe", 7⟩, fun _ => NextResult.fail 18⟩ (fun _ => 0)
      "a.exe" 1).2 7 false rfl,
   (from_process_name_panics_and_unchecked_handle
      ⟨true, none, fun _ => NextResult.fail 0⟩ (fun _ => 0) "x.exe" 1).1
     ToyArmsExternalError.ProcessNotFound true rfl⟩

end ToyArms
